import Mathlib

/-!
Verification of the per-request action-dispatch engine of the wasm-shim
HTTP filter.

The Rust sources embedded here are:
  * `src/filter/kuadrant_filter.rs` — the `KuadrantFilter` engine
    (request/response callbacks, the pending-operation loop, header
    buffering, direct responses);
  * `src/service.rs` — `GrpcRequest`, `GrpcErrResponse`, `HeaderResolver`,
    `TracingHeader`;
  * `src/filter/proposal_context.rs` — the operation value types
    (`GrpcMessageSenderOperation`, `GrpcMessageReceiverOperation`) whose
    shapes the main engine reuses.

Modules of the repository that the engine consumes but whose sources are
absent (`action_set_index.rs`, `runtime_action_set.rs`,
`runtime_action.rs`, `filter/operations.rs`, `configuration.rs`) are
modelled from the specification; each such definition carries a doc
comment starting with "Modelled from the spec:".

Host capabilities (header reads, gRPC dispatch, direct responses,
resume) are embedded as an oracle environment plus an effect trace: every
host-visible call the filter makes is appended to `effects`.
-/

namespace WasmShim

/-- Header lists as ordered (name, value) pairs. -/
abbrev Headers := List (String × String)

/-- Byte strings (`proxy_wasm::types::Bytes`), modelled as lists of bytes. -/
abbrev Bytes := List Nat

/-- `proxy_wasm::types::Action` returned from HTTP callbacks. -/
inductive HostAction where
  | Continue
  | Pause
deriving DecidableEq, Repr

/-- `proxy_wasm::types::Status::Ok as u32` — the OK status of a gRPC call. -/
def statusOk : Nat := 0

/-- Modelled from the spec: `configuration::FailureMode` (configuration.rs is
absent from src/). `service.failure_mode ∈ {deny, allow}`. -/
inductive FailureMode where
  | deny
  | allow
deriving DecidableEq, Repr

/-- Modelled from the spec: `configuration::ServiceType` (configuration.rs is
absent from src/). `service.kind ∈ {auth, rate_limit}`. -/
inductive ServiceType where
  | auth
  | rateLimit
deriving DecidableEq, Repr

/-- Modelled from the spec: `configuration::Service` (configuration.rs is
absent from src/): service kind, upstream endpoint, timeout, failure mode. -/
structure Service where
  serviceType : ServiceType
  endpoint : String
  timeout : Nat
  failureMode : FailureMode

/-- `service.rs`: `GrpcRequest` — the information required to make a gRPC call. -/
structure GrpcRequest where
  upstreamName : String
  serviceName : String
  methodName : String
  timeout : Nat
  message : Option Bytes

/-- `service.rs`: `IndexedGrpcRequest` — a `GrpcRequest` plus its index within
the owning action set. -/
structure IndexedGrpcRequest where
  index : Nat
  request : GrpcRequest

/-- `service.rs`: `GrpcErrResponse` — status code, response headers and body of
a synthesized direct response. -/
structure GrpcErrResponse where
  statusCode : Nat
  responseHeaders : Headers
  body : String

/-- `service.rs`: `GrpcErrResponse::new_internal_server_error` —
`StatusCode::InternalServerError` (500), no headers, fixed body. -/
def GrpcErrResponse.newInternalServerError : GrpcErrResponse :=
  { statusCode := 500, responseHeaders := [], body := "Internal Server Error.\n" }

/-- Modelled from the spec: `service::HeaderKind` (the revision of service.rs
in src/ predates it; `kuadrant_filter.rs` matches on
`HeaderKind::Request`/`HeaderKind::Response`). A header mutation tagged with
the phase it belongs to. -/
inductive HeaderKind where
  | request (hs : Headers)
  | response (hs : Headers)

/-- `service.rs`: the three well-known tracing headers. -/
inductive TracingHeader where
  | traceparent
  | tracestate
  | baggage

/-- `service.rs`: `TracingHeader::all`. -/
def TracingHeader.all : List TracingHeader :=
  [TracingHeader.traceparent, TracingHeader.tracestate, TracingHeader.baggage]

/-- `service.rs`: `TracingHeader::as_str`. -/
def TracingHeader.asStr : TracingHeader → String
  | TracingHeader.traceparent => "traceparent"
  | TracingHeader.tracestate => "tracestate"
  | TracingHeader.baggage => "baggage"

/-- `service.rs`: `HeaderResolver` — a `OnceCell` holding the captured tracing
headers, modelled as an `Option`. -/
structure HeaderResolver where
  headers : Option (List (String × Bytes))

/-- `service.rs`: `HeaderResolver::new` — empty cell. -/
def HeaderResolver.new : HeaderResolver := ⟨none⟩

/-- `service.rs`: `HeaderResolver::get_with_ctx` — `get_or_init`: on first use
walk `TracingHeader::all`, keeping the headers present on the request (read
through `ctx`, the host's `get_http_request_header_bytes`); afterwards return
the cached list unchanged. Returns the list together with the (possibly
updated) cell. -/
def HeaderResolver.getWithCtx (r : HeaderResolver) (ctx : String → Option Bytes) :
    List (String × Bytes) × HeaderResolver :=
  match r.headers with
  | some hs => (hs, r)
  | none =>
    let hs := TracingHeader.all.foldl
      (fun acc h =>
        match ctx h.asStr with
        | some value => acc ++ [(h.asStr, value)]
        | none => acc)
      []
    (hs, ⟨some hs⟩)

/-- Modelled from the spec: service name constant for each service kind
(`service/auth.rs` and `service/rate_limit.rs` are absent from src/; the
values are immaterial to the claims). -/
def serviceNameOf : ServiceType → String
  | ServiceType.auth => "envoy.service.auth.v3.Authorization"
  | ServiceType.rateLimit => "envoy.service.ratelimit.v3.RateLimitService"

/-- Modelled from the spec: method name constant for each service kind
(`service/auth.rs` and `service/rate_limit.rs` are absent from src/; the
values are immaterial to the claims). -/
def methodNameOf : ServiceType → String
  | ServiceType.auth => "Check"
  | ServiceType.rateLimit => "ShouldRateLimit"

/-- Modelled from the spec: `RuntimeAction` (runtime_action.rs is absent from
src/). One policy step: a reference to its `Service`, the predicate's value
for the current request (predicate evaluation is an external pure
`evaluate → bool`), the payload built from the current request attributes,
and the interpreter of the service's reply, which yields either an optional
phase-tagged header mutation or a direct error response. -/
structure RuntimeAction where
  service : Service
  predicate : Bool
  message : Option Bytes
  interpret : Bytes → Except GrpcErrResponse (Option HeaderKind)

/-- Modelled from the spec: building the outbound request for an action via
`GrpcService::build_request` (service.rs): upstream endpoint, service and
method names for the service kind, timeout, payload. -/
def RuntimeAction.buildRequest (a : RuntimeAction) : GrpcRequest :=
  { upstreamName := a.service.endpoint
    serviceName := serviceNameOf a.service.serviceType
    methodName := methodNameOf a.service.serviceType
    timeout := a.service.timeout
    message := a.message }

/-- Modelled from the spec: `RuntimeActionSet` (runtime_action_set.rs is
absent from src/): name, the evaluated set-level condition for the current
request, and the ordered list of actions. -/
structure RuntimeActionSet where
  name : String
  conditions : Bool
  actions : List RuntimeAction

/-- Modelled from the spec: `RuntimeActionSet::conditions_apply`. -/
def RuntimeActionSet.conditionsApply (s : RuntimeActionSet) : Bool :=
  s.conditions

/-- Modelled from the spec: scan `actions` from position `start` (global index
`i`), skipping actions whose predicate is false, and return the first
applicable action's built request with its index. -/
def findFirstApplicable : List RuntimeAction → Nat → Option IndexedGrpcRequest
  | [], _ => none
  | a :: rest, i =>
    if a.predicate then some ⟨i, a.buildRequest⟩
    else findFirstApplicable rest (i + 1)

/-- Modelled from the spec: `RuntimeActionSet::find_first_grpc_request` —
first applicable action's request, or absent if no action applies. -/
def RuntimeActionSet.findFirstGrpcRequest (s : RuntimeActionSet) :
    Option IndexedGrpcRequest :=
  findFirstApplicable s.actions 0

/-- Modelled from the spec: `RuntimeActionSet::process_grpc_response` —
interpret the response through the action at `index`, then scan the remaining
actions (`index + 1` …) for the next applicable one. Returns
`(next_request?, headers?)` or an error response. The spec's invariant is
`index < actions.length`; out of range is defensively an internal error. -/
def RuntimeActionSet.processGrpcResponse (s : RuntimeActionSet) (index : Nat)
    (msg : Bytes) :
    Except GrpcErrResponse (Option IndexedGrpcRequest × Option HeaderKind) :=
  match s.actions[index]? with
  | none => Except.error GrpcErrResponse.newInternalServerError
  | some a =>
    match a.interpret msg with
    | Except.error e => Except.error e
    | Except.ok headers =>
      Except.ok (findFirstApplicable (s.actions.drop (index + 1)) (index + 1), headers)

/-- Modelled from the spec: authority pattern matching
(`action_set_index.rs` is absent from src/). A pattern matches an authority
if equal, or if the pattern is `*.X` and the authority equals `X` or ends
with `.X`. -/
def matchesPattern (pattern authority : String) : Bool :=
  match pattern.data with
  | '*' :: '.' :: x => authority.data == x || List.isSuffixOf ('.' :: x) authority.data
  | _ => pattern == authority

/-- Modelled from the spec: `ActionSetIndex` — authority pattern → action
sets. -/
structure ActionSetIndex where
  entries : List (String × List RuntimeActionSet)

/-- Modelled from the spec:
`ActionSetIndex::get_longest_match_action_sets` — among all entries whose
pattern matches the authority, the longest pattern wins (ties are impossible,
patterns are unique); absent when no pattern matches. -/
def ActionSetIndex.getLongestMatchActionSets (idx : ActionSetIndex)
    (authority : String) : Option (List RuntimeActionSet) :=
  match idx.entries.filter (fun e => matchesPattern e.1 authority) with
  | [] => none
  | e :: rest =>
    some (rest.foldl (fun best c => if best.1.length < c.1.length then c else best) e).2

/-- `proposal_context.rs` / filter/operations.rs:
`GrpcMessageSenderOperation` — the owning action set plus the indexed request
to send. -/
structure GrpcMessageSenderOperation where
  runtimeActionSet : RuntimeActionSet
  grpcRequest : IndexedGrpcRequest

/-- `proposal_context.rs` / filter/operations.rs:
`GrpcMessageReceiverOperation` — the owning action set plus the index of the
action awaiting its response. -/
structure GrpcMessageReceiverOperation where
  runtimeActionSet : RuntimeActionSet
  currentIndex : Nat

/-- Modelled from the spec: `HeadersOperation` of filter/operations.rs (absent
from src/), wrapping the phase-tagged mutation that `into_inner` exposes. -/
structure HeadersOperation where
  kind : HeaderKind

/-- The pending operation exchanged between the engine and the host-facing
adapter (`Operation` in proposal_context.rs / filter/operations.rs). -/
inductive Operation where
  | sendGrpcRequest (op : GrpcMessageSenderOperation)
  | awaitGrpcResponse (op : GrpcMessageReceiverOperation)
  | addHeaders (op : HeadersOperation)
  | die (resp : GrpcErrResponse)
  | done

/-- Modelled from the spec: `GrpcMessageSenderOperation::build_receiver_operation`
(filter/operations.rs is absent from src/) — split the sender into the plain
request and the receiver holding the set and current index (the proposal's
`runtime_action_set`/`current_index`/`grpc_request` accessors combined). -/
def GrpcMessageSenderOperation.buildReceiverOperation
    (s : GrpcMessageSenderOperation) :
    GrpcRequest × GrpcMessageReceiverOperation :=
  (s.grpcRequest.request, ⟨s.runtimeActionSet, s.grpcRequest.index⟩)

/-- Modelled from the spec: `GrpcMessageReceiverOperation::fail` of
filter/operations.rs (absent from src/). Per the spec, a transport-level
failure is routed through the failing action's `Service.failure_mode`:
deny ⇒ a 500 internal-server-error direct response; allow ⇒ no headers and
continue (`Done`). Out-of-range index is defensively deny. (The draft in
proposal_context.rs always dies with 500 and carries a todo questioning
that; the spec fixes failure-mode routing.) -/
def GrpcMessageReceiverOperation.fail (r : GrpcMessageReceiverOperation) :
    Operation :=
  match r.runtimeActionSet.actions[r.currentIndex]? with
  | none => Operation.die GrpcErrResponse.newInternalServerError
  | some a =>
    match a.service.failureMode with
    | FailureMode.deny => Operation.die GrpcErrResponse.newInternalServerError
    | FailureMode.allow => Operation.done

/-- `proposal_context.rs`:
`GrpcMessageReceiverOperation::digest_grpc_response` — process the response
through the owning set; on success emit the optional header operation
followed by the next send (or `Done`); on error emit `Die`. -/
def GrpcMessageReceiverOperation.digestGrpcResponse
    (r : GrpcMessageReceiverOperation) (msg : Bytes) : List Operation :=
  match r.runtimeActionSet.processGrpcResponse r.currentIndex msg with
  | Except.ok (nextMsg, headers) =>
    (match headers with
     | some hk => [Operation.addHeaders ⟨hk⟩]
     | none => []) ++
    [match nextMsg with
     | none => Operation.done
     | some indexedReq =>
       Operation.sendGrpcRequest ⟨r.runtimeActionSet, indexedReq⟩]
  | Except.error e => [Operation.die e]

/-- Host-visible calls the filter makes, recorded as an effect trace. -/
inductive Effect where
  | dispatchGrpc (upstreamName serviceName methodName : String)
      (headers : List (String × Bytes)) (message : Option Bytes) (timeout : Nat)
  | addRequestHeader (name value : String)
  | addResponseHeader (name value : String)
  | sendHttpResponse (status : Nat) (headers : Headers) (body : String)
  | resumeHttpRequest
  | warnLog (msg : String)
deriving DecidableEq, Repr

/-- The host environment seen by one request: the request's headers (string
and byte reads) and an oracle for the outcome of successive
`dispatch_grpc_call`s (`true` = a token is returned, `false` = a non-OK
status; exhausted list defaults to success). -/
structure HostEnv where
  requestHeader : String → Option String
  requestHeaderBytes : String → Option Bytes
  dispatchResults : List Bool

/-- `kuadrant_filter.rs`: the per-request `KuadrantFilter` state, extended
with the host environment and the trace of host-visible effects. -/
structure KuadrantFilter where
  contextId : Nat
  index : ActionSetIndex
  headerResolver : HeaderResolver
  grpcMessageReceiverOperation : Option GrpcMessageReceiverOperation
  responseHeadersToAdd : Option Headers
  requestHeadersToAdd : Option Headers
  host : HostEnv
  effects : List Effect

/-- `kuadrant_filter.rs`: `KuadrantFilter::new` — no pending receiver, both
header buffers initialized to `Some(Vec::default())`. -/
def KuadrantFilter.new (contextId : Nat) (index : ActionSetIndex)
    (headerResolver : HeaderResolver) (host : HostEnv) : KuadrantFilter :=
  { contextId := contextId
    index := index
    headerResolver := headerResolver
    grpcMessageReceiverOperation := none
    responseHeadersToAdd := some []
    requestHeadersToAdd := some []
    host := host
    effects := [] }

/-- Append one host-visible effect to the trace. -/
def KuadrantFilter.emit (f : KuadrantFilter) (e : Effect) : KuadrantFilter :=
  { f with effects := f.effects ++ [e] }

/-- `kuadrant_filter.rs`: `KuadrantFilter::request_authority` helper — the
Rust `host.split(':')` (which always yields at least one segment); element 0
is the part before the first `':'`. -/
def splitChar (sep : Char) : List Char → List (List Char)
  | [] => [[]]
  | c :: rest =>
    if c = sep then [] :: splitChar sep rest
    else
      match splitChar sep rest with
      | [] => [[c]]
      | g :: gs => (c :: g) :: gs

/-- `kuadrant_filter.rs`: `KuadrantFilter::request_authority` — read the
`:authority` pseudo-header; missing ⇒ empty string (with a warning log, not
modelled: the method is a pure read); otherwise split on `':'` and keep
element 0, stripping any port suffix. -/
def KuadrantFilter.requestAuthority (f : KuadrantFilter) : String :=
  match f.host.requestHeader ":authority" with
  | none => ""
  | some host => String.mk ((splitChar ':' host.data).headD [])

/-- `kuadrant_filter.rs`: `KuadrantFilter::send_grpc_request` — resolve the
tracing headers through the `HeaderResolver` (first use captures them), then
`dispatch_grpc_call` with the request's coordinates, the tracing headers, the
payload and the timeout. The dispatch outcome is drawn from the host oracle;
the attempt is recorded in the trace either way. -/
def KuadrantFilter.sendGrpcRequest (f : KuadrantFilter) (req : GrpcRequest) :
    KuadrantFilter × Except Nat Nat :=
  let resolved := f.headerResolver.getWithCtx f.host.requestHeaderBytes
  let outcome :=
    match f.host.dispatchResults with
    | [] => (true, ([] : List Bool))
    | b :: bs => (b, bs)
  let f₁ : KuadrantFilter :=
    { f with
      headerResolver := resolved.2
      host := { f.host with dispatchResults := outcome.2 } }
  let f₂ := f₁.emit
    (Effect.dispatchGrpc req.upstreamName req.serviceName req.methodName
      resolved.1 req.message req.timeout)
  if outcome.1 then (f₂, Except.ok 0) else (f₂, Except.error 1)

/-- `kuadrant_filter.rs`: `KuadrantFilter::add_request_headers` —
`mem::take` the request-phase buffer (leaving `None`) and add each buffered
header to the request. -/
def KuadrantFilter.addRequestHeaders (f : KuadrantFilter) : KuadrantFilter :=
  match f.requestHeadersToAdd with
  | none => f
  | some hs =>
    { f with
      requestHeadersToAdd := none
      effects := f.effects ++ hs.map (fun hv => Effect.addRequestHeader hv.1 hv.2) }

/-- `kuadrant_filter.rs`: `KuadrantFilter::die` — `send_http_response` with
the error response's status, headers and body. -/
def KuadrantFilter.die (f : KuadrantFilter) (d : GrpcErrResponse) : KuadrantFilter :=
  f.emit (Effect.sendHttpResponse d.statusCode d.responseHeaders d.body)

/-- Measure used to justify the engine's recursion: only a `SendGrpcRequest`
re-enters `handle_operation` (with `AwaitGrpcResponse` or the failure
routing, none of which is a send). -/
def Operation.sendMeasure : Operation → Nat
  | Operation.sendGrpcRequest _ => 1
  | _ => 0

theorem fail_sendMeasure (r : GrpcMessageReceiverOperation) :
    r.fail.sendMeasure = 0 := by
  unfold GrpcMessageReceiverOperation.fail
  split
  · rfl
  · split <;> rfl

/-- `kuadrant_filter.rs`: `KuadrantFilter::handle_operation` — the
pending-operation loop: a send dispatches and recurses on the stored-receiver
await (or on the failure routing when the dispatch returns a non-OK status);
await stores the receiver and pauses; header operations extend the matching
phase buffer when that phase is still open, else warn and discard; `Die`
sends the direct response; `Done` applies the request-phase buffer and
resumes the request. -/
def KuadrantFilter.handleOperation (f : KuadrantFilter) :
    Operation → KuadrantFilter × HostAction
  | Operation.sendGrpcRequest senderOp =>
    let built := senderOp.buildReceiverOperation
    let sent := f.sendGrpcRequest built.1
    (match sent.2 with
     | Except.ok _ => sent.1.handleOperation (Operation.awaitGrpcResponse built.2)
     | Except.error _ => sent.1.handleOperation built.2.fail)
  | Operation.awaitGrpcResponse receiverOp =>
    ({ f with grpcMessageReceiverOperation := some receiverOp }, HostAction.Pause)
  | Operation.addHeaders headerOp =>
    (match headerOp.kind with
     | HeaderKind.request hs =>
       match f.requestHeadersToAdd with
       | some existing =>
         ({ f with requestHeadersToAdd := some (existing ++ hs) }, HostAction.Continue)
       | none =>
         (f.emit (Effect.warnLog "Trying to add request headers after phase has ended!"),
          HostAction.Continue)
     | HeaderKind.response hs =>
       match f.responseHeadersToAdd with
       | some existing =>
         ({ f with responseHeadersToAdd := some (existing ++ hs) }, HostAction.Continue)
       | none =>
         (f.emit (Effect.warnLog "Trying to add response headers after phase has ended!"),
          HostAction.Continue))
  | Operation.die dieOp => (f.die dieOp, HostAction.Continue)
  | Operation.done =>
    (f.addRequestHeaders.emit Effect.resumeHttpRequest, HostAction.Continue)
termination_by op => op.sendMeasure
decreasing_by
  · simp [Operation.sendMeasure]
  · rw [fail_sendMeasure]
    simp [Operation.sendMeasure]

/-- `kuadrant_filter.rs`: `KuadrantFilter::start_flow` — first applicable
action's request (or `Done` when none applies) handed to the operation loop. -/
def KuadrantFilter.startFlow (f : KuadrantFilter) (actionSet : RuntimeActionSet) :
    KuadrantFilter × HostAction :=
  match actionSet.findFirstGrpcRequest with
  | none => f.handleOperation Operation.done
  | some indexedReq =>
    f.handleOperation (Operation.sendGrpcRequest ⟨actionSet, indexedReq⟩)

/-- `kuadrant_filter.rs`: `KuadrantFilter::on_http_request_headers` — look up
the action sets for the request authority, pick the first whose conditions
apply and start the flow; default action is `Continue`, and whenever the
resulting action is `Continue` the request-phase buffer is applied before
returning. -/
def KuadrantFilter.onHttpRequestHeaders (f : KuadrantFilter) :
    KuadrantFilter × HostAction :=
  let stepped :=
    match f.index.getLongestMatchActionSets f.requestAuthority with
    | some actionSets =>
      (match actionSets.find? (fun s => s.conditionsApply) with
       | some actionSet => f.startFlow actionSet
       | none => (f, HostAction.Continue))
    | none => (f, HostAction.Continue)
  if stepped.2 = HostAction.Continue then (stepped.1.addRequestHeaders, stepped.2)
  else stepped

/-- `kuadrant_filter.rs`: `KuadrantFilter::on_http_response_headers` —
`mem::take` the response-phase buffer and add each buffered header to the
response; always `Continue`. -/
def KuadrantFilter.onHttpResponseHeaders (f : KuadrantFilter) :
    KuadrantFilter × HostAction :=
  match f.responseHeadersToAdd with
  | none => (f, HostAction.Continue)
  | some hs =>
    ({ f with
       responseHeadersToAdd := none
       effects := f.effects ++ hs.map (fun hv => Effect.addResponseHeader hv.1 hv.2) },
     HostAction.Continue)

/-- `kuadrant_filter.rs`: `KuadrantFilter::on_grpc_call_response` —
`mem::take` the pending receiver (`expect` panics when none is stored,
modelled as `none`); a non-OK status or an unreadable body yields the
failure routing, an OK status with a readable body is digested; the resulting
operations are handled in order. `responseBody` is the host's
`get_grpc_call_response_body(0, resp_size)`. -/
def KuadrantFilter.onGrpcCallResponse (f : KuadrantFilter) (statusCode : Nat)
    (responseBody : Option Bytes) : Option KuadrantFilter :=
  match f.grpcMessageReceiverOperation with
  | none => none
  | some receiver =>
    let f₁ : KuadrantFilter := { f with grpcMessageReceiverOperation := none }
    let ops : List Operation :=
      if statusCode ≠ statusOk then [receiver.fail]
      else
        match responseBody with
        | some body => receiver.digestGrpcResponse body
        | none => [receiver.fail]
    some (ops.foldl (fun g op => (g.handleOperation op).1) f₁)

/-! Equation lemmas for the operation loop (it is defined by well-founded
recursion, so its defining equations are exposed as lemmas here). -/

theorem handleOperation_await (f : KuadrantFilter) (r : GrpcMessageReceiverOperation) :
    f.handleOperation (Operation.awaitGrpcResponse r) =
      ({ f with grpcMessageReceiverOperation := some r }, HostAction.Pause) := by
  simp [KuadrantFilter.handleOperation]

theorem handleOperation_die (f : KuadrantFilter) (d : GrpcErrResponse) :
    f.handleOperation (Operation.die d) = (f.die d, HostAction.Continue) := by
  simp [KuadrantFilter.handleOperation]

theorem handleOperation_done (f : KuadrantFilter) :
    f.handleOperation Operation.done =
      (f.addRequestHeaders.emit Effect.resumeHttpRequest, HostAction.Continue) := by
  simp [KuadrantFilter.handleOperation]

theorem handleOperation_addHeaders (f : KuadrantFilter) (hop : HeadersOperation) :
    f.handleOperation (Operation.addHeaders hop) =
      (match hop.kind with
       | HeaderKind.request hs =>
         match f.requestHeadersToAdd with
         | some existing =>
           ({ f with requestHeadersToAdd := some (existing ++ hs) }, HostAction.Continue)
         | none =>
           (f.emit (Effect.warnLog "Trying to add request headers after phase has ended!"),
            HostAction.Continue)
       | HeaderKind.response hs =>
         match f.responseHeadersToAdd with
         | some existing =>
           ({ f with responseHeadersToAdd := some (existing ++ hs) }, HostAction.Continue)
         | none =>
           (f.emit (Effect.warnLog "Trying to add response headers after phase has ended!"),
            HostAction.Continue)) := by
  simp [KuadrantFilter.handleOperation]

theorem handleOperation_send (f : KuadrantFilter) (s : GrpcMessageSenderOperation) :
    f.handleOperation (Operation.sendGrpcRequest s) =
      (match (f.sendGrpcRequest s.buildReceiverOperation.1).2 with
       | Except.ok _ =>
         (f.sendGrpcRequest s.buildReceiverOperation.1).1.handleOperation
           (Operation.awaitGrpcResponse s.buildReceiverOperation.2)
       | Except.error _ =>
         (f.sendGrpcRequest s.buildReceiverOperation.1).1.handleOperation
           s.buildReceiverOperation.2.fail) := by
  rw [KuadrantFilter.handleOperation]

/-! Structure of the effect trace: every engine step only appends host calls,
and the number of gRPC dispatch attempts a step appends is bounded by the
number of send operations it handles. -/

/-- Whether an effect is a gRPC dispatch attempt. -/
def isDispatchEffect : Effect → Bool
  | Effect.dispatchGrpc _ _ _ _ _ _ => true
  | _ => false

/-- Number of gRPC dispatch attempts recorded in a trace. -/
def countDispatches (l : List Effect) : Nat := l.countP isDispatchEffect

theorem countDispatches_addRequestHeader_map (hs : Headers) :
    countDispatches (hs.map (fun hv => Effect.addRequestHeader hv.1 hv.2)) = 0 := by
  refine List.countP_eq_zero.mpr ?_
  intro e he
  simp only [List.mem_map] at he
  obtain ⟨hv, _, rfl⟩ := he
  simp [isDispatchEffect]

theorem addRequestHeaders_none (f : KuadrantFilter) (h : f.requestHeadersToAdd = none) :
    f.addRequestHeaders = f := by
  unfold KuadrantFilter.addRequestHeaders
  rw [h]

theorem addRequestHeaders_some (f : KuadrantFilter) (hs : Headers)
    (h : f.requestHeadersToAdd = some hs) :
    f.addRequestHeaders =
      { f with
        requestHeadersToAdd := none
        effects := f.effects ++ hs.map (fun hv => Effect.addRequestHeader hv.1 hv.2) } := by
  unfold KuadrantFilter.addRequestHeaders
  rw [h]

theorem sendGrpcRequest_fst (f : KuadrantFilter) (req : GrpcRequest) :
    (f.sendGrpcRequest req).1 =
      { f with
        headerResolver := (f.headerResolver.getWithCtx f.host.requestHeaderBytes).2
        host := { f.host with dispatchResults := f.host.dispatchResults.tail }
        effects := f.effects ++
          [Effect.dispatchGrpc req.upstreamName req.serviceName req.methodName
            (f.headerResolver.getWithCtx f.host.requestHeaderBytes).1 req.message
            req.timeout] } := by
  cases h : f.host.dispatchResults with
  | nil => simp [KuadrantFilter.sendGrpcRequest, h, KuadrantFilter.emit]
  | cons b bs => cases b <;> simp [KuadrantFilter.sendGrpcRequest, h, KuadrantFilter.emit]

theorem sendGrpcRequest_snd_error (f : KuadrantFilter) (req : GrpcRequest)
    (h : f.host.dispatchResults.head? = some false) :
    (f.sendGrpcRequest req).2 = Except.error 1 := by
  cases hd : f.host.dispatchResults with
  | nil => rw [hd] at h; simp at h
  | cons b bs =>
    rw [hd] at h
    simp only [List.head?_cons, Option.some.injEq] at h
    subst h
    simp [KuadrantFilter.sendGrpcRequest, hd]

theorem sendGrpcRequest_snd_ok (f : KuadrantFilter) (req : GrpcRequest)
    (h : f.host.dispatchResults.head? ≠ some false) :
    (f.sendGrpcRequest req).2 = Except.ok 0 := by
  cases hd : f.host.dispatchResults with
  | nil => simp [KuadrantFilter.sendGrpcRequest, hd]
  | cons b bs =>
    rw [hd] at h
    simp only [List.head?_cons, ne_eq, Option.some.injEq] at h
    cases b
    · exact absurd rfl h
    · simp [KuadrantFilter.sendGrpcRequest, hd]

theorem handleOperation_nonsend_effects (f : KuadrantFilter) (op : Operation)
    (h : op.sendMeasure = 0) :
    ∃ l, ((f.handleOperation op).1).effects = f.effects ++ l ∧ countDispatches l = 0 := by
  cases op with
  | sendGrpcRequest s => simp [Operation.sendMeasure] at h
  | awaitGrpcResponse r =>
    refine ⟨[], ?_, rfl⟩
    simp [handleOperation_await]
  | addHeaders hop =>
    rw [handleOperation_addHeaders]
    cases hk : hop.kind with
    | request hs =>
      cases hr : f.requestHeadersToAdd with
      | none =>
        refine ⟨[Effect.warnLog "Trying to add request headers after phase has ended!"],
          ?_, rfl⟩
        simp [KuadrantFilter.emit]
      | some ex => exact ⟨[], by simp, rfl⟩
    | response hs =>
      cases hr : f.responseHeadersToAdd with
      | none =>
        refine ⟨[Effect.warnLog "Trying to add response headers after phase has ended!"],
          ?_, rfl⟩
        simp [KuadrantFilter.emit]
      | some ex => exact ⟨[], by simp, rfl⟩
  | die d =>
    refine ⟨[Effect.sendHttpResponse d.statusCode d.responseHeaders d.body], ?_, rfl⟩
    simp [handleOperation_die, KuadrantFilter.die, KuadrantFilter.emit]
  | done =>
    rw [handleOperation_done]
    cases hr : f.requestHeadersToAdd with
    | none =>
      refine ⟨[Effect.resumeHttpRequest], ?_, rfl⟩
      simp [KuadrantFilter.emit, addRequestHeaders_none f hr]
    | some hs =>
      refine ⟨hs.map (fun hv => Effect.addRequestHeader hv.1 hv.2) ++
        [Effect.resumeHttpRequest], ?_, ?_⟩
      · simp [KuadrantFilter.emit, addRequestHeaders_some f hs hr]
      · simp [countDispatches, List.countP_append, isDispatchEffect]

theorem handleOperation_effects (f : KuadrantFilter) (op : Operation) :
    ∃ l, ((f.handleOperation op).1).effects = f.effects ++ l ∧
      countDispatches l ≤ op.sendMeasure := by
  cases op with
  | sendGrpcRequest s =>
    rw [handleOperation_send]
    cases hsnd : (f.sendGrpcRequest s.buildReceiverOperation.1).2 with
    | ok t =>
      refine ⟨[Effect.dispatchGrpc s.buildReceiverOperation.1.upstreamName
        s.buildReceiverOperation.1.serviceName s.buildReceiverOperation.1.methodName
        (f.headerResolver.getWithCtx f.host.requestHeaderBytes).1
        s.buildReceiverOperation.1.message s.buildReceiverOperation.1.timeout], ?_, ?_⟩
      · rw [handleOperation_await]
        simp [sendGrpcRequest_fst]
      · simp [countDispatches, isDispatchEffect, Operation.sendMeasure]
    | error st =>
      obtain ⟨l', hl', hc'⟩ :=
        handleOperation_nonsend_effects (f.sendGrpcRequest s.buildReceiverOperation.1).1
          s.buildReceiverOperation.2.fail (fail_sendMeasure _)
      refine ⟨[Effect.dispatchGrpc s.buildReceiverOperation.1.upstreamName
        s.buildReceiverOperation.1.serviceName s.buildReceiverOperation.1.methodName
        (f.headerResolver.getWithCtx f.host.requestHeaderBytes).1
        s.buildReceiverOperation.1.message s.buildReceiverOperation.1.timeout] ++ l',
        ?_, ?_⟩
      · rw [hl', sendGrpcRequest_fst]
        simp
      · simp only [countDispatches] at hc'
        simp only [countDispatches, List.countP_cons, List.countP_append, List.countP_nil,
          isDispatchEffect, Operation.sendMeasure, if_true]
        omega
  | awaitGrpcResponse r =>
    obtain ⟨l, h1, h2⟩ := handleOperation_nonsend_effects f (Operation.awaitGrpcResponse r) rfl
    exact ⟨l, h1, by simp [Operation.sendMeasure, h2]⟩
  | addHeaders hop =>
    obtain ⟨l, h1, h2⟩ := handleOperation_nonsend_effects f (Operation.addHeaders hop) rfl
    exact ⟨l, h1, by simp [Operation.sendMeasure, h2]⟩
  | die d =>
    obtain ⟨l, h1, h2⟩ := handleOperation_nonsend_effects f (Operation.die d) rfl
    exact ⟨l, h1, by simp [Operation.sendMeasure, h2]⟩
  | done =>
    obtain ⟨l, h1, h2⟩ := handleOperation_nonsend_effects f Operation.done rfl
    exact ⟨l, h1, by simp [Operation.sendMeasure, h2]⟩

/-- Total send weight of a list of operations. -/
def opsSendMeasure (ops : List Operation) : Nat :=
  (ops.map Operation.sendMeasure).sum

theorem foldl_handleOperation_effects (ops : List Operation) (f : KuadrantFilter) :
    ∃ l, (ops.foldl (fun g op => (g.handleOperation op).1) f).effects = f.effects ++ l ∧
      countDispatches l ≤ opsSendMeasure ops := by
  induction ops generalizing f with
  | nil => exact ⟨[], by simp, by simp [opsSendMeasure, countDispatches]⟩
  | cons op rest ih =>
    obtain ⟨l1, h1, c1⟩ := handleOperation_effects f op
    obtain ⟨l2, h2, c2⟩ := ih (f.handleOperation op).1
    refine ⟨l1 ++ l2, ?_, ?_⟩
    · simp only [List.foldl_cons]
      rw [h2, h1]
      simp
    · simp only [countDispatches, List.countP_append, opsSendMeasure, List.map_cons,
        List.sum_cons] at *
      omega

theorem digest_sendMeasure_le (r : GrpcMessageReceiverOperation) (msg : Bytes) :
    opsSendMeasure (r.digestGrpcResponse msg) ≤ 1 := by
  unfold GrpcMessageReceiverOperation.digestGrpcResponse
  cases hp : r.runtimeActionSet.processGrpcResponse r.currentIndex msg with
  | error e => simp [opsSendMeasure, Operation.sendMeasure]
  | ok p =>
    obtain ⟨nextMsg, headers⟩ := p
    cases headers <;> cases nextMsg <;>
      simp [opsSendMeasure, Operation.sendMeasure]

/-! Request-phase application tracking, used for the once-only property. -/

/-- Whether an effect adds a header to the forwarded request. -/
def isAddRequestHeaderEffect : Effect → Bool
  | Effect.addRequestHeader _ _ => true
  | _ => false

/-- Number of request-header additions recorded in a trace. -/
def countAddRequestHeaders (l : List Effect) : Nat := l.countP isAddRequestHeaderEffect

theorem handleOperation_after_phase_nonsend (g : KuadrantFilter) (op : Operation)
    (hg : g.requestHeadersToAdd = none) (hns : op.sendMeasure = 0) :
    (g.handleOperation op).1.requestHeadersToAdd = none ∧
      countAddRequestHeaders ((g.handleOperation op).1.effects) =
        countAddRequestHeaders g.effects := by
  cases op with
  | sendGrpcRequest s => simp [Operation.sendMeasure] at hns
  | awaitGrpcResponse r =>
    rw [handleOperation_await]
    exact ⟨hg, rfl⟩
  | addHeaders hop =>
    rw [handleOperation_addHeaders]
    cases hk : hop.kind with
    | request hs =>
      rw [hg]
      refine ⟨hg, ?_⟩
      simp [KuadrantFilter.emit, countAddRequestHeaders, List.countP_append,
        isAddRequestHeaderEffect]
    | response hs =>
      cases hr : g.responseHeadersToAdd with
      | none =>
        refine ⟨hg, ?_⟩
        simp [KuadrantFilter.emit, countAddRequestHeaders, List.countP_append,
          isAddRequestHeaderEffect]
      | some ex => exact ⟨hg, rfl⟩
  | die d =>
    rw [handleOperation_die]
    refine ⟨hg, ?_⟩
    simp [KuadrantFilter.die, KuadrantFilter.emit, countAddRequestHeaders,
      List.countP_append, isAddRequestHeaderEffect]
  | done =>
    rw [handleOperation_done, addRequestHeaders_none g hg]
    refine ⟨hg, ?_⟩
    simp [KuadrantFilter.emit, countAddRequestHeaders, List.countP_append,
      isAddRequestHeaderEffect]

theorem handleOperation_after_phase (g : KuadrantFilter) (op : Operation)
    (hg : g.requestHeadersToAdd = none) :
    (g.handleOperation op).1.requestHeadersToAdd = none ∧
      countAddRequestHeaders ((g.handleOperation op).1.effects) =
        countAddRequestHeaders g.effects := by
  cases op with
  | sendGrpcRequest s =>
    rw [handleOperation_send]
    have hfst : (g.sendGrpcRequest s.buildReceiverOperation.1).1.requestHeadersToAdd
        = none := by
      rw [sendGrpcRequest_fst]
      exact hg
    have heff : countAddRequestHeaders
        ((g.sendGrpcRequest s.buildReceiverOperation.1).1.effects) =
        countAddRequestHeaders g.effects := by
      rw [sendGrpcRequest_fst]
      simp [countAddRequestHeaders, List.countP_append, isAddRequestHeaderEffect]
    cases hsnd : (g.sendGrpcRequest s.buildReceiverOperation.1).2 with
    | ok t =>
      obtain ⟨h1, h2⟩ := handleOperation_after_phase_nonsend
        (g.sendGrpcRequest s.buildReceiverOperation.1).1
        (Operation.awaitGrpcResponse s.buildReceiverOperation.2) hfst rfl
      exact ⟨h1, by rw [h2, heff]⟩
    | error st =>
      obtain ⟨h1, h2⟩ := handleOperation_after_phase_nonsend
        (g.sendGrpcRequest s.buildReceiverOperation.1).1
        s.buildReceiverOperation.2.fail hfst (fail_sendMeasure _)
      exact ⟨h1, by rw [h2, heff]⟩
  | awaitGrpcResponse r =>
    exact handleOperation_after_phase_nonsend g (Operation.awaitGrpcResponse r) hg rfl
  | addHeaders hop =>
    exact handleOperation_after_phase_nonsend g (Operation.addHeaders hop) hg rfl
  | die d =>
    exact handleOperation_after_phase_nonsend g (Operation.die d) hg rfl
  | done =>
    exact handleOperation_after_phase_nonsend g Operation.done hg rfl

/-- C5: request-phase header mutations are applied exactly once per request,
immediately before the engine resumes the paused request — processing `Done`
applies exactly the buffered mutations, closes the request phase (buffer
becomes `None`) and resumes; once the phase is closed, an
`AddHeaders(request)` operation is logged and discarded without touching the
state; and no operation whatsoever can apply request-phase mutations again or
reopen the phase. -/
theorem request_headers_applied_once_before_resume
    (f g : KuadrantFilter) (buffered hs : Headers) (op : Operation)
    (hbuf : f.requestHeadersToAdd = some buffered)
    (hclosed : g.requestHeadersToAdd = none) :
    ((f.handleOperation Operation.done).1.requestHeadersToAdd = none ∧
      (f.handleOperation Operation.done).1.effects =
        f.effects ++ buffered.map (fun hv => Effect.addRequestHeader hv.1 hv.2) ++
          [Effect.resumeHttpRequest]) ∧
    ((g.handleOperation (Operation.addHeaders ⟨HeaderKind.request hs⟩)).1 =
      g.emit (Effect.warnLog "Trying to add request headers after phase has ended!")) ∧
    ((g.handleOperation op).1.requestHeadersToAdd = none ∧
      countAddRequestHeaders ((g.handleOperation op).1.effects) =
        countAddRequestHeaders g.effects) := by
  refine ⟨⟨?_, ?_⟩, ?_, handleOperation_after_phase g op hclosed⟩
  · rw [handleOperation_done, addRequestHeaders_some f buffered hbuf]
    rfl
  · rw [handleOperation_done, addRequestHeaders_some f buffered hbuf]
    simp [KuadrantFilter.emit]
  · rw [handleOperation_addHeaders]
    rw [hclosed]

/-- A host with no request headers and no dispatch outcomes, used to build
concrete filter states. -/
def quietHost : HostEnv :=
  { requestHeader := fun _ => none
    requestHeaderBytes := fun _ => none
    dispatchResults := [] }

def c5OpenFilter : KuadrantFilter :=
  { KuadrantFilter.new 1 ⟨[]⟩ HeaderResolver.new quietHost with
    requestHeadersToAdd := some [("x-user", "alice")] }

def c5ClosedFilter : KuadrantFilter :=
  { KuadrantFilter.new 2 ⟨[]⟩ HeaderResolver.new quietHost with
    requestHeadersToAdd := none }

/-- Witness for C5 at a concrete open buffer, a concrete late mutation and a
concrete follow-up operation. -/
theorem request_headers_applied_once_before_resume_witness :
    ((c5OpenFilter.handleOperation Operation.done).1.requestHeadersToAdd = none ∧
      (c5OpenFilter.handleOperation Operation.done).1.effects =
        c5OpenFilter.effects ++
          ([("x-user", "alice")] : Headers).map
            (fun hv => Effect.addRequestHeader hv.1 hv.2) ++
          [Effect.resumeHttpRequest]) ∧
    ((c5ClosedFilter.handleOperation
        (Operation.addHeaders ⟨HeaderKind.request [("a", "b")]⟩)).1 =
      c5ClosedFilter.emit
        (Effect.warnLog "Trying to add request headers after phase has ended!")) ∧
    ((c5ClosedFilter.handleOperation Operation.done).1.requestHeadersToAdd = none ∧
      countAddRequestHeaders
          ((c5ClosedFilter.handleOperation Operation.done).1.effects) =
        countAddRequestHeaders c5ClosedFilter.effects) :=
  request_headers_applied_once_before_resume c5OpenFilter c5ClosedFilter
    [("x-user", "alice")] [("a", "b")] Operation.done rfl rfl

/-- C6: for every `Die` operation produced mid-flow, the engine sends the
direct response with the service-supplied status, headers and body; the only
host call made is `send_http_response` — no accumulated request-phase header
mutation is applied (the buffer is left untouched and no request-header
effect is emitted) and the request is not resumed (no resume effect). -/
theorem die_mid_flow_sends_direct_response_only
    (f : KuadrantFilter) (resp : GrpcErrResponse) :
    f.handleOperation (Operation.die resp) =
      ({ f with effects := f.effects ++
          [Effect.sendHttpResponse resp.statusCode resp.responseHeaders resp.body] },
       HostAction.Continue) := by
  rw [handleOperation_die]
  rfl

/-- C10: if the gRPC response callback fires while no receiver operation is
stored, the engine treats it as a fatal invariant violation and aborts the
request context (the `expect` panic, modelled as `none`). -/
theorem grpc_response_without_pending_receiver_aborts
    (f : KuadrantFilter) (statusCode : Nat) (responseBody : Option Bytes)
    (h : f.grpcMessageReceiverOperation = none) :
    f.onGrpcCallResponse statusCode responseBody = none := by
  unfold KuadrantFilter.onGrpcCallResponse
  rw [h]

def c10Filter : KuadrantFilter := KuadrantFilter.new 7 ⟨[]⟩ HeaderResolver.new quietHost

/-- Witness for C10 at a concrete filter with no pending receiver. -/
theorem grpc_response_without_pending_receiver_aborts_witness :
    c10Filter.onGrpcCallResponse 0 none = none :=
  grpc_response_without_pending_receiver_aborts c10Filter 0 none rfl

/-! The response-headers callback after a direct response (claim C7). -/

def c7Filter0 : KuadrantFilter := KuadrantFilter.new 3 ⟨[]⟩ HeaderResolver.new quietHost

/-- A state in which the engine has buffered a response-phase mutation and
then sent a direct response via `Die` (for example auth replying OK with
response headers followed by an over-limit rate-limit reply). -/
def c7Dying : KuadrantFilter :=
  ((c7Filter0.handleOperation
      (Operation.addHeaders ⟨HeaderKind.response [("x-ratelimit-remaining", "0")]⟩)).1.handleOperation
    (Operation.die ⟨429, [], "too many"⟩)).1

/-- Counterexample to C7 as stated: in the state reached after a `Die` with a
buffered response-phase mutation, the host's response-headers callback is not
a no-op — it applies the buffered mutation. -/
theorem dying_response_headers_not_noop :
    (c7Dying.onHttpResponseHeaders).1.effects =
      [Effect.sendHttpResponse 429 [] "too many",
       Effect.addResponseHeader "x-ratelimit-remaining" "0"] ∧
    (c7Dying.onHttpResponseHeaders).1.effects ≠ c7Dying.effects := by
  have hd : c7Dying =
      { c7Filter0 with
        responseHeadersToAdd := some [("x-ratelimit-remaining", "0")]
        effects := [Effect.sendHttpResponse 429 [] "too many"] } := by
    unfold c7Dying
    rw [handleOperation_addHeaders]
    simp only []
    rw [show c7Filter0.responseHeadersToAdd = some [] from rfl]
    rw [handleOperation_die]
    rfl
  rw [hd]
  refine ⟨?_, ?_⟩
  · rfl
  · simp [KuadrantFilter.onHttpResponseHeaders]

/-- C7 amended: after the engine has sent a direct response via `Die` the
response-headers callback behaves exactly as in the `Done` state — it applies
(once) whatever response-phase mutations were accumulated and returns
`Continue`; it is a no-op only when no response-phase mutation was
accumulated. -/
theorem response_headers_callback_applies_buffer
    (f : KuadrantFilter) (hs : Headers)
    (h : f.responseHeadersToAdd = some hs) :
    f.onHttpResponseHeaders =
      ({ f with
         responseHeadersToAdd := none
         effects := f.effects ++ hs.map (fun hv => Effect.addResponseHeader hv.1 hv.2) },
       HostAction.Continue) := by
  unfold KuadrantFilter.onHttpResponseHeaders
  rw [h]

/-- Witness for the amended C7 at the concrete dying state. -/
theorem response_headers_callback_applies_buffer_witness :
    c7Dying.onHttpResponseHeaders =
      ({ c7Dying with
         responseHeadersToAdd := none
         effects := c7Dying.effects ++
           ([("x-ratelimit-remaining", "0")] : Headers).map
             (fun hv => Effect.addResponseHeader hv.1 hv.2) },
       HostAction.Continue) :=
  response_headers_callback_applies_buffer c7Dying [("x-ratelimit-remaining", "0")]
    (by
      unfold c7Dying
      rw [handleOperation_addHeaders]
      simp only []
      rw [show c7Filter0.responseHeadersToAdd = some [] from rfl]
      rw [handleOperation_die]
      rfl)

/-! Authority derivation (claim C8). -/

theorem splitChar_ne_nil (sep : Char) (l : List Char) : splitChar sep l ≠ [] := by
  induction l with
  | nil => simp [splitChar]
  | cons c rest ih =>
    simp only [splitChar]
    split
    · simp
    · cases h : splitChar sep rest with
      | nil => simp
      | cons g gs => simp

theorem splitChar_headD (sep : Char) (l : List Char) :
    (splitChar sep l).headD [] = l.takeWhile (fun c => !decide (c = sep)) := by
  induction l with
  | nil => rfl
  | cons c rest ih =>
    simp only [splitChar]
    by_cases hc : c = sep
    · subst hc
      simp [List.takeWhile_cons]
    · rw [if_neg hc]
      cases hsp : splitChar sep rest with
      | nil => exact absurd hsp (splitChar_ne_nil sep rest)
      | cons g gs =>
        rw [hsp] at ih
        simp only [List.headD_cons] at ih
        simp [List.takeWhile_cons, hc, ← ih]

theorem takeWhile_append_colon (h p : List Char) (hh : ':' ∉ h) :
    (h ++ ':' :: p).takeWhile (fun c => !decide (c = ':')) = h := by
  induction h with
  | nil => simp [List.takeWhile_cons]
  | cons c cs ih =>
    have hc : ¬(c = ':') := by
      intro e
      exact hh (by rw [e]; exact List.mem_cons_self ':' cs)
    have hcs : ':' ∉ cs := fun m => hh (List.mem_cons_of_mem c m)
    simp [List.takeWhile_cons, hc, ih hcs]

theorem takeWhile_no_colon (h : List Char) (hh : ':' ∉ h) :
    h.takeWhile (fun c => !decide (c = ':')) = h := by
  induction h with
  | nil => rfl
  | cons c cs ih =>
    have hc : ¬(c = ':') := by
      intro e
      exact hh (by rw [e]; exact List.mem_cons_self ':' cs)
    have hcs : ':' ∉ cs := fun m => hh (List.mem_cons_of_mem c m)
    simp [List.takeWhile_cons, hc, ih hcs]

theorem requestAuthority_some (f : KuadrantFilter) (s : String)
    (hf : f.host.requestHeader ":authority" = some s) :
    f.requestAuthority = String.mk (s.data.takeWhile (fun c => !decide (c = ':'))) := by
  unfold KuadrantFilter.requestAuthority
  rw [hf]
  show String.mk ((splitChar ':' s.data).headD []) =
    String.mk (s.data.takeWhile (fun c => !decide (c = ':')))
  rw [splitChar_headD]

/-- C8: the matching authority is the `:authority` pseudo-header with any
`:port` suffix stripped — an authority `host:port` yields the same derived
authority as the bare `host`, hence matches the same patterns and selects the
same action sets; a missing `:authority` header yields the empty string. -/
theorem request_authority_strips_port (h p : List Char) (hh : ':' ∉ h) :
    (∀ f : KuadrantFilter,
       f.host.requestHeader ":authority" = some (String.mk (h ++ ':' :: p)) →
       f.requestAuthority = String.mk h ∧
       f.index.getLongestMatchActionSets f.requestAuthority =
         f.index.getLongestMatchActionSets (String.mk h)) ∧
    (∀ g : KuadrantFilter,
       g.host.requestHeader ":authority" = some (String.mk h) →
       g.requestAuthority = String.mk h) ∧
    (∀ q : KuadrantFilter,
       q.host.requestHeader ":authority" = none → q.requestAuthority = "") := by
  refine ⟨?_, ?_, ?_⟩
  · intro f hf
    have he : f.requestAuthority = String.mk h := by
      rw [requestAuthority_some f _ hf]
      show String.mk ((h ++ ':' :: p).takeWhile (fun c => !decide (c = ':'))) = String.mk h
      rw [takeWhile_append_colon h p hh]
    exact ⟨he, by rw [he]⟩
  · intro g hg
    rw [requestAuthority_some g _ hg]
    show String.mk (h.takeWhile (fun c => !decide (c = ':'))) = String.mk h
    rw [takeWhile_no_colon h hh]
  · intro q hq
    unfold KuadrantFilter.requestAuthority
    rw [hq]

def c8Host : HostEnv :=
  { requestHeader := fun n =>
      if n = ":authority" then some "api.example.com:8080" else none
    requestHeaderBytes := fun _ => none
    dispatchResults := [] }

def c8Filter : KuadrantFilter := KuadrantFilter.new 4 ⟨[]⟩ HeaderResolver.new c8Host

/-- Witness for C8 at `api.example.com:8080`. -/
theorem request_authority_strips_port_witness :
    ':' ∉ "api.example.com".data ∧
      (c8Filter.requestAuthority = String.mk "api.example.com".data ∧
        c8Filter.index.getLongestMatchActionSets c8Filter.requestAuthority =
          c8Filter.index.getLongestMatchActionSets (String.mk "api.example.com".data)) :=
  ⟨by decide,
    (request_authority_strips_port "api.example.com".data "8080".data (by decide)).1
      c8Filter (by decide)⟩

/-! The tracing header resolver (claim C9). -/

theorem foldl_capture (ctx : String → Option Bytes) (l : List TracingHeader)
    (acc : List (String × Bytes)) :
    l.foldl
      (fun acc h =>
        match ctx h.asStr with
        | some value => acc ++ [(h.asStr, value)]
        | none => acc)
      acc =
      acc ++ l.filterMap (fun h => (ctx h.asStr).map (fun v => (h.asStr, v))) := by
  induction l generalizing acc with
  | nil => simp
  | cons h rest ih =>
    cases hc : ctx h.asStr with
    | none => simp [List.foldl_cons, hc, ih]
    | some v => simp [List.foldl_cons, hc, ih]

/-- C9: on its first use within a request the header resolver captures
exactly the values of the tracing headers `traceparent`, `tracestate`,
`baggage` present on the request (the empty list when none is present), and
every later call returns the same cached list and leaves the cell unchanged,
regardless of the headers visible at that later call. -/
theorem header_resolver_single_shot (ctx ctx2 : String → Option Bytes) :
    (HeaderResolver.new.getWithCtx ctx).1 =
      TracingHeader.all.filterMap
        (fun h => (ctx h.asStr).map (fun v => (h.asStr, v))) ∧
    ((∀ h : TracingHeader, ctx h.asStr = none) →
      (HeaderResolver.new.getWithCtx ctx).1 = []) ∧
    ((HeaderResolver.new.getWithCtx ctx).2.getWithCtx ctx2).1 =
      (HeaderResolver.new.getWithCtx ctx).1 ∧
    ((HeaderResolver.new.getWithCtx ctx).2.getWithCtx ctx2).2 =
      (HeaderResolver.new.getWithCtx ctx).2 := by
  have hfirst : HeaderResolver.new.getWithCtx ctx =
      (TracingHeader.all.filterMap
        (fun h => (ctx h.asStr).map (fun v => (h.asStr, v))),
       ⟨some (TracingHeader.all.filterMap
        (fun h => (ctx h.asStr).map (fun v => (h.asStr, v))))⟩) := by
    show (TracingHeader.all.foldl
        (fun acc h =>
          match ctx h.asStr with
          | some value => acc ++ [(h.asStr, value)]
          | none => acc)
        [], (⟨some (TracingHeader.all.foldl
        (fun acc h =>
          match ctx h.asStr with
          | some value => acc ++ [(h.asStr, value)]
          | none => acc)
        [])⟩ : HeaderResolver)) = _
    rw [foldl_capture]
    simp
  refine ⟨by rw [hfirst], ?_, ?_, ?_⟩
  · intro hnone
    rw [hfirst]
    simp [hnone]
  · rw [hfirst]
    rfl
  · rw [hfirst]
    rfl

def c9Ctx : String → Option Bytes :=
  fun n => if n = "traceparent" then some [1, 2, 3] else none

def c9Ctx2 : String → Option Bytes := fun _ => some [9]

/-- Witness for C9 at a request carrying only `traceparent`, with different
headers visible at the second call. -/
theorem header_resolver_single_shot_witness :
    (HeaderResolver.new.getWithCtx c9Ctx).1 =
      TracingHeader.all.filterMap
        (fun h => (c9Ctx h.asStr).map (fun v => (h.asStr, v))) ∧
    ((∀ h : TracingHeader, c9Ctx h.asStr = none) →
      (HeaderResolver.new.getWithCtx c9Ctx).1 = []) ∧
    ((HeaderResolver.new.getWithCtx c9Ctx).2.getWithCtx c9Ctx2).1 =
      (HeaderResolver.new.getWithCtx c9Ctx).1 ∧
    ((HeaderResolver.new.getWithCtx c9Ctx).2.getWithCtx c9Ctx2).2 =
      (HeaderResolver.new.getWithCtx c9Ctx).2 :=
  header_resolver_single_shot c9Ctx c9Ctx2

/-! Failure routing (claims C1 and C4). -/

theorem fail_deny (r : GrpcMessageReceiverOperation) (a : RuntimeAction)
    (ha : r.runtimeActionSet.actions[r.currentIndex]? = some a)
    (hfm : a.service.failureMode = FailureMode.deny) :
    r.fail = Operation.die GrpcErrResponse.newInternalServerError := by
  unfold GrpcMessageReceiverOperation.fail
  rw [ha]
  show (match a.service.failureMode with
    | FailureMode.deny => Operation.die GrpcErrResponse.newInternalServerError
    | FailureMode.allow => Operation.done) = _
  rw [hfm]

theorem fail_allow (r : GrpcMessageReceiverOperation) (a : RuntimeAction)
    (ha : r.runtimeActionSet.actions[r.currentIndex]? = some a)
    (hfm : a.service.failureMode = FailureMode.allow) :
    r.fail = Operation.done := by
  unfold GrpcMessageReceiverOperation.fail
  rw [ha]
  show (match a.service.failureMode with
    | FailureMode.deny => Operation.die GrpcErrResponse.newInternalServerError
    | FailureMode.allow => Operation.done) = _
  rw [hfm]

theorem onGrpcCallResponse_some (f : KuadrantFilter)
    (r : GrpcMessageReceiverOperation) (statusCode : Nat)
    (responseBody : Option Bytes)
    (hr : f.grpcMessageReceiverOperation = some r) :
    f.onGrpcCallResponse statusCode responseBody =
      some ((if statusCode ≠ statusOk then [r.fail]
             else
               match responseBody with
               | some body => r.digestGrpcResponse body
               | none => [r.fail]).foldl
        (fun g op => (g.handleOperation op).1)
        { f with grpcMessageReceiverOperation := none }) := by
  unfold KuadrantFilter.onGrpcCallResponse
  rw [hr]

/-- C1: a transport-level RPC failure (non-OK RPC status on the response
callback, or an unreadable/absent response body) is routed through the
failing action's `Service.failure_mode`: with `deny` the engine produces the
500 internal-server-error direct response (terminating the request, no
resume); with `allow` the failing step produces no headers and the request is
resumed (only the previously buffered request headers are applied before the
resume, and no direct response is sent). -/
theorem transport_failure_routed_via_failure_mode
    (f : KuadrantFilter) (r : GrpcMessageReceiverOperation) (a : RuntimeAction)
    (statusCode : Nat) (responseBody : Option Bytes) (buffered : Headers)
    (hr : f.grpcMessageReceiverOperation = some r)
    (ha : r.runtimeActionSet.actions[r.currentIndex]? = some a)
    (hfail : statusCode ≠ statusOk ∨ responseBody = none)
    (hbuf : f.requestHeadersToAdd = some buffered) :
    ∃ f', f.onGrpcCallResponse statusCode responseBody = some f' ∧
      (a.service.failureMode = FailureMode.deny →
        f'.effects = f.effects ++
          [Effect.sendHttpResponse 500 [] "Internal Server Error.\n"]) ∧
      (a.service.failureMode = FailureMode.allow →
        f'.effects = f.effects ++
          buffered.map (fun hv => Effect.addRequestHeader hv.1 hv.2) ++
          [Effect.resumeHttpRequest] ∧
        f'.requestHeadersToAdd = none) := by
  have hsome : f.onGrpcCallResponse statusCode responseBody =
      some (({ f with grpcMessageReceiverOperation := none } :
        KuadrantFilter).handleOperation r.fail).1 := by
    rw [onGrpcCallResponse_some f r statusCode responseBody hr]
    rcases hfail with hst | hb
    · rw [if_pos hst]
      simp only [List.foldl_cons, List.foldl_nil]
    · subst hb
      by_cases hst : statusCode ≠ statusOk
      · rw [if_pos hst]
        simp only [List.foldl_cons, List.foldl_nil]
      · rw [if_neg hst]
        simp only [List.foldl_cons, List.foldl_nil]
  rw [hsome]
  refine ⟨_, rfl, ?_, ?_⟩
  · intro hfm
    rw [fail_deny r a ha hfm, handleOperation_die]
    rfl
  · intro hfm
    rw [fail_allow r a ha hfm, handleOperation_done]
    have hb1 : ({ f with grpcMessageReceiverOperation := none } :
        KuadrantFilter).requestHeadersToAdd = some buffered := hbuf
    rw [addRequestHeaders_some _ buffered hb1]
    exact ⟨by simp [KuadrantFilter.emit], rfl⟩

def denyService : Service :=
  { serviceType := ServiceType.auth
    endpoint := "authorino"
    timeout := 10
    failureMode := FailureMode.deny }

def denyAction : RuntimeAction :=
  { service := denyService
    predicate := true
    message := none
    interpret := fun _ => Except.ok none }

def denySet : RuntimeActionSet :=
  { name := "set-deny", conditions := true, actions := [denyAction] }

def c1Receiver : GrpcMessageReceiverOperation := ⟨denySet, 0⟩

def c1Filter : KuadrantFilter :=
  { KuadrantFilter.new 5 ⟨[]⟩ HeaderResolver.new quietHost with
    grpcMessageReceiverOperation := some c1Receiver }

/-- Witness for C1: a non-OK RPC status on a deny-mode action yields the 500
direct response. -/
theorem transport_failure_routed_via_failure_mode_witness :
    ∃ f', c1Filter.onGrpcCallResponse 13 none = some f' ∧
      (denyAction.service.failureMode = FailureMode.deny →
        f'.effects = c1Filter.effects ++
          [Effect.sendHttpResponse 500 [] "Internal Server Error.\n"]) ∧
      (denyAction.service.failureMode = FailureMode.allow →
        f'.effects = c1Filter.effects ++
          ([] : Headers).map (fun hv => Effect.addRequestHeader hv.1 hv.2) ++
          [Effect.resumeHttpRequest] ∧
        f'.requestHeadersToAdd = none) :=
  transport_failure_routed_via_failure_mode c1Filter c1Receiver denyAction 13 none []
    rfl rfl (Or.inl (by decide)) rfl

/-- C4: a dispatch that fails synchronously (the host returns a non-OK status
from `dispatch_grpc_call`) is treated as a completed-with-failure RPC and
routed through the action's failure mode instead of aborting: the engine
records the dispatch attempt, then with `deny` sends the 500 direct response
and with `allow` applies the buffered request headers and resumes; in both
cases it returns `Continue` normally. -/
theorem dispatch_failure_routed_via_failure_mode
    (f : KuadrantFilter) (s : GrpcMessageSenderOperation) (a : RuntimeAction)
    (buffered : Headers)
    (hdisp : f.host.dispatchResults.head? = some false)
    (ha : s.runtimeActionSet.actions[s.grpcRequest.index]? = some a)
    (hbuf : f.requestHeadersToAdd = some buffered) :
    ∃ d, isDispatchEffect d = true ∧
      (a.service.failureMode = FailureMode.deny →
        (f.handleOperation (Operation.sendGrpcRequest s)).1.effects =
          f.effects ++ [d] ++
            [Effect.sendHttpResponse 500 [] "Internal Server Error.\n"] ∧
        (f.handleOperation (Operation.sendGrpcRequest s)).2 = HostAction.Continue) ∧
      (a.service.failureMode = FailureMode.allow →
        (f.handleOperation (Operation.sendGrpcRequest s)).1.effects =
          f.effects ++ [d] ++
            buffered.map (fun hv => Effect.addRequestHeader hv.1 hv.2) ++
            [Effect.resumeHttpRequest] ∧
        (f.handleOperation (Operation.sendGrpcRequest s)).2 = HostAction.Continue) := by
  have ha' : (s.buildReceiverOperation.2).runtimeActionSet.actions[
      (s.buildReceiverOperation.2).currentIndex]? = some a := ha
  have hsent := sendGrpcRequest_fst f s.buildReceiverOperation.1
  have hstep : f.handleOperation (Operation.sendGrpcRequest s) =
      (f.sendGrpcRequest s.buildReceiverOperation.1).1.handleOperation
        s.buildReceiverOperation.2.fail := by
    rw [handleOperation_send, sendGrpcRequest_snd_error f s.buildReceiverOperation.1 hdisp]
  refine ⟨Effect.dispatchGrpc s.buildReceiverOperation.1.upstreamName
    s.buildReceiverOperation.1.serviceName s.buildReceiverOperation.1.methodName
    (f.headerResolver.getWithCtx f.host.requestHeaderBytes).1
    s.buildReceiverOperation.1.message s.buildReceiverOperation.1.timeout,
    rfl, ?_, ?_⟩
  · intro hfm
    rw [hstep, fail_deny s.buildReceiverOperation.2 a ha' hfm, handleOperation_die]
    constructor
    · rw [show ((f.sendGrpcRequest s.buildReceiverOperation.1).1.die
          GrpcErrResponse.newInternalServerError).effects =
          (f.sendGrpcRequest s.buildReceiverOperation.1).1.effects ++
            [Effect.sendHttpResponse 500 [] "Internal Server Error.\n"] from rfl]
      rw [hsent]
    · rfl
  · intro hfm
    rw [hstep, fail_allow s.buildReceiverOperation.2 a ha' hfm, handleOperation_done]
    have hb1 : (f.sendGrpcRequest s.buildReceiverOperation.1).1.requestHeadersToAdd =
        some buffered := by
      rw [hsent]
      exact hbuf
    constructor
    · rw [show ((f.sendGrpcRequest
          s.buildReceiverOperation.1).1.addRequestHeaders.emit
            Effect.resumeHttpRequest).effects =
          (f.sendGrpcRequest
            s.buildReceiverOperation.1).1.addRequestHeaders.effects ++
            [Effect.resumeHttpRequest] from rfl]
      rw [addRequestHeaders_some _ buffered hb1]
      rw [show ({ (f.sendGrpcRequest s.buildReceiverOperation.1).1 with
          requestHeadersToAdd := none
          effects := (f.sendGrpcRequest s.buildReceiverOperation.1).1.effects ++
            buffered.map (fun hv => Effect.addRequestHeader hv.1 hv.2) } :
          KuadrantFilter).effects =
          (f.sendGrpcRequest s.buildReceiverOperation.1).1.effects ++
            buffered.map (fun hv => Effect.addRequestHeader hv.1 hv.2) from rfl]
      rw [hsent]
    · rfl

def c4Host : HostEnv :=
  { requestHeader := fun _ => none
    requestHeaderBytes := fun _ => none
    dispatchResults := [false] }

def c4Sender : GrpcMessageSenderOperation := ⟨denySet, ⟨0, denyAction.buildRequest⟩⟩

def c4Filter : KuadrantFilter := KuadrantFilter.new 6 ⟨[]⟩ HeaderResolver.new c4Host

/-- Witness for C4: a synchronously failing dispatch on a deny-mode action
yields the dispatch attempt followed by the 500 direct response. -/
theorem dispatch_failure_routed_via_failure_mode_witness :
    ∃ d, isDispatchEffect d = true ∧
      (denyAction.service.failureMode = FailureMode.deny →
        (c4Filter.handleOperation (Operation.sendGrpcRequest c4Sender)).1.effects =
          c4Filter.effects ++ [d] ++
            [Effect.sendHttpResponse 500 [] "Internal Server Error.\n"] ∧
        (c4Filter.handleOperation (Operation.sendGrpcRequest c4Sender)).2 =
          HostAction.Continue) ∧
      (denyAction.service.failureMode = FailureMode.allow →
        (c4Filter.handleOperation (Operation.sendGrpcRequest c4Sender)).1.effects =
          c4Filter.effects ++ [d] ++
            ([] : Headers).map (fun hv => Effect.addRequestHeader hv.1 hv.2) ++
            [Effect.resumeHttpRequest] ∧
        (c4Filter.handleOperation (Operation.sendGrpcRequest c4Sender)).2 =
          HostAction.Continue) :=
  dispatch_failure_routed_via_failure_mode c4Filter c4Sender denyAction []
    rfl rfl rfl

/-! Request-headers callback shapes (claims C2 and C3). -/

theorem onHttpRequestHeaders_unmatched (f : KuadrantFilter)
    (h : f.index.getLongestMatchActionSets f.requestAuthority = none) :
    f.onHttpRequestHeaders = (f.addRequestHeaders, HostAction.Continue) := by
  unfold KuadrantFilter.onHttpRequestHeaders
  rw [h]
  rfl

theorem onHttpRequestHeaders_no_set (f : KuadrantFilter)
    (sets : List RuntimeActionSet)
    (hsets : f.index.getLongestMatchActionSets f.requestAuthority = some sets)
    (hfind : sets.find? (fun s => s.conditionsApply) = none) :
    f.onHttpRequestHeaders = (f.addRequestHeaders, HostAction.Continue) := by
  unfold KuadrantFilter.onHttpRequestHeaders
  rw [hsets]
  simp only []
  rw [hfind]
  rfl

theorem onHttpRequestHeaders_matched (f : KuadrantFilter)
    (sets : List RuntimeActionSet) (aset : RuntimeActionSet)
    (hsets : f.index.getLongestMatchActionSets f.requestAuthority = some sets)
    (hfind : sets.find? (fun s => s.conditionsApply) = some aset) :
    f.onHttpRequestHeaders =
      (if (f.startFlow aset).2 = HostAction.Continue
       then ((f.startFlow aset).1.addRequestHeaders, (f.startFlow aset).2)
       else f.startFlow aset) := by
  unfold KuadrantFilter.onHttpRequestHeaders
  rw [hsets]
  simp only []
  rw [hfind]

theorem startFlow_no_applicable (f : KuadrantFilter) (aset : RuntimeActionSet)
    (h : aset.findFirstGrpcRequest = none) :
    f.startFlow aset = f.handleOperation Operation.done := by
  unfold KuadrantFilter.startFlow
  rw [h]

theorem findFirstApplicable_all_false (actions : List RuntimeAction)
    (h : ∀ a ∈ actions, a.predicate = false) (i : Nat) :
    findFirstApplicable actions i = none := by
  induction actions generalizing i with
  | nil => rfl
  | cons a rest ih =>
    simp only [findFirstApplicable]
    rw [h a (List.mem_cons_self a rest)]
    simp only [Bool.false_eq_true, if_false]
    exact ih (fun b hb => h b (List.mem_cons_of_mem a hb)) (i + 1)

/-- C2: for a request whose authority matches no action set, and for a request
whose selected action set has zero applicable actions (all predicates false),
the request-headers callback returns exactly one `Continue`, dispatches no
RPC and adds no header mutation — the effect trace is empty in the first case
and exactly the host resume in the second. -/
theorem no_applicable_action_single_continue
    (f : KuadrantFilter)
    (hbuf : f.requestHeadersToAdd = some [])
    (heff : f.effects = [])
    (hmatch :
      f.index.getLongestMatchActionSets f.requestAuthority = none ∨
      ∃ sets aset,
        f.index.getLongestMatchActionSets f.requestAuthority = some sets ∧
        sets.find? (fun s => s.conditionsApply) = some aset ∧
        ∀ a ∈ aset.actions, a.predicate = false) :
    (f.onHttpRequestHeaders).2 = HostAction.Continue ∧
      ((f.onHttpRequestHeaders).1.effects = [] ∨
        (f.onHttpRequestHeaders).1.effects = [Effect.resumeHttpRequest]) := by
  rcases hmatch with hnone | ⟨sets, aset, hsets, hfind, hall⟩
  · rw [onHttpRequestHeaders_unmatched f hnone]
    refine ⟨rfl, Or.inl ?_⟩
    rw [addRequestHeaders_some f [] hbuf]
    simp [heff]
  · have hff : aset.findFirstGrpcRequest = none :=
      findFirstApplicable_all_false aset.actions hall 0
    rw [onHttpRequestHeaders_matched f sets aset hsets hfind,
      startFlow_no_applicable f aset hff, handleOperation_done,
      addRequestHeaders_some f [] hbuf]
    refine ⟨rfl, Or.inr ?_⟩
    simp [KuadrantFilter.emit, addRequestHeaders_none, heff]

def c2Filter : KuadrantFilter := KuadrantFilter.new 8 ⟨[]⟩ HeaderResolver.new quietHost

/-- Witness for C2 at a concrete request with an empty index (no pattern
matches). -/
theorem no_applicable_action_single_continue_witness :
    (c2Filter.onHttpRequestHeaders).2 = HostAction.Continue ∧
      ((c2Filter.onHttpRequestHeaders).1.effects = [] ∨
        (c2Filter.onHttpRequestHeaders).1.effects = [Effect.resumeHttpRequest]) :=
  no_applicable_action_single_continue c2Filter rfl rfl (Or.inl rfl)

theorem countDispatches_append (l1 l2 : List Effect) :
    countDispatches (l1 ++ l2) = countDispatches l1 + countDispatches l2 := by
  simp [countDispatches, List.countP_append]

theorem countDispatches_addRequestHeaders (g : KuadrantFilter) :
    countDispatches g.addRequestHeaders.effects = countDispatches g.effects := by
  cases hb : g.requestHeadersToAdd with
  | none => rw [addRequestHeaders_none g hb]
  | some hs =>
    rw [addRequestHeaders_some g hs hb]
    show countDispatches (g.effects ++
      hs.map (fun hv => Effect.addRequestHeader hv.1 hv.2)) = countDispatches g.effects
    rw [countDispatches_append, countDispatches_addRequestHeader_map]
    omega

theorem pause_stores_receiver_nonsend (g : KuadrantFilter) (op : Operation)
    (h0 : op.sendMeasure = 0) :
    (g.handleOperation op).2 = HostAction.Pause →
      ((g.handleOperation op).1.grpcMessageReceiverOperation).isSome = true := by
  cases op with
  | sendGrpcRequest s => simp [Operation.sendMeasure] at h0
  | awaitGrpcResponse r =>
    rw [handleOperation_await]
    intro
    rfl
  | addHeaders hop =>
    rw [handleOperation_addHeaders]
    cases hk : hop.kind with
    | request hs =>
      cases hr : g.requestHeadersToAdd <;> intro hp <;> simp at hp
    | response hs =>
      cases hr : g.responseHeadersToAdd <;> intro hp <;> simp at hp
  | die d =>
    rw [handleOperation_die]
    intro hp
    simp at hp
  | done =>
    rw [handleOperation_done]
    intro hp
    simp at hp

theorem pause_stores_receiver (g : KuadrantFilter) (op : Operation) :
    (g.handleOperation op).2 = HostAction.Pause →
      ((g.handleOperation op).1.grpcMessageReceiverOperation).isSome = true := by
  cases op with
  | sendGrpcRequest s =>
    rw [handleOperation_send]
    cases hsnd : (g.sendGrpcRequest s.buildReceiverOperation.1).2 with
    | ok t =>
      exact pause_stores_receiver_nonsend (g.sendGrpcRequest s.buildReceiverOperation.1).1
        (Operation.awaitGrpcResponse s.buildReceiverOperation.2) rfl
    | error st =>
      exact pause_stores_receiver_nonsend (g.sendGrpcRequest s.buildReceiverOperation.1).1
        s.buildReceiverOperation.2.fail (fail_sendMeasure _)
  | awaitGrpcResponse r => exact pause_stores_receiver_nonsend g _ rfl
  | addHeaders hop => exact pause_stores_receiver_nonsend g _ rfl
  | die d => exact pause_stores_receiver_nonsend g _ rfl
  | done => exact pause_stores_receiver_nonsend g _ rfl

/-- C3: at most one RPC is outstanding at any instant — each host callback
(request headers or gRPC response) records at most one new dispatch attempt
in the trace, and whenever the engine pauses (the only way it awaits a
response) the receiver operation is stored, so a second RPC can only be
dispatched by the next response callback after the pending one has been
processed. -/
theorem at_most_one_outstanding_rpc :
    (∀ f : KuadrantFilter,
       countDispatches ((f.onHttpRequestHeaders).1.effects) ≤
         countDispatches f.effects + 1) ∧
    (∀ (f f' : KuadrantFilter) (statusCode : Nat) (responseBody : Option Bytes),
       f.onGrpcCallResponse statusCode responseBody = some f' →
       countDispatches f'.effects ≤ countDispatches f.effects + 1) ∧
    (∀ (f : KuadrantFilter) (op : Operation),
       (f.handleOperation op).2 = HostAction.Pause →
       ((f.handleOperation op).1.grpcMessageReceiverOperation).isSome = true) := by
  refine ⟨?_, ?_, fun f op => pause_stores_receiver f op⟩
  · intro f
    cases hm : f.index.getLongestMatchActionSets f.requestAuthority with
    | none =>
      rw [onHttpRequestHeaders_unmatched f hm]
      show countDispatches f.addRequestHeaders.effects ≤ countDispatches f.effects + 1
      rw [countDispatches_addRequestHeaders]
      omega
    | some sets =>
      cases hf : sets.find? (fun s => s.conditionsApply) with
      | none =>
        rw [onHttpRequestHeaders_no_set f sets hm hf]
        show countDispatches f.addRequestHeaders.effects ≤ countDispatches f.effects + 1
        rw [countDispatches_addRequestHeaders]
        omega
      | some aset =>
        rw [onHttpRequestHeaders_matched f sets aset hm hf]
        have hsf : countDispatches (f.startFlow aset).1.effects ≤
            countDispatches f.effects + 1 := by
          unfold KuadrantFilter.startFlow
          cases hff : aset.findFirstGrpcRequest with
          | none =>
            obtain ⟨l, hl, hc⟩ := handleOperation_effects f Operation.done
            have hc1 : countDispatches l ≤ 0 := hc
            rw [hl, countDispatches_append]
            omega
          | some ireq =>
            obtain ⟨l, hl, hc⟩ :=
              handleOperation_effects f (Operation.sendGrpcRequest ⟨aset, ireq⟩)
            have hc1 : countDispatches l ≤ 1 := hc
            rw [hl, countDispatches_append]
            omega
        by_cases hc2 : (f.startFlow aset).2 = HostAction.Continue
        · rw [if_pos hc2]
          show countDispatches (f.startFlow aset).1.addRequestHeaders.effects ≤
            countDispatches f.effects + 1
          rw [countDispatches_addRequestHeaders]
          exact hsf
        · rw [if_neg hc2]
          exact hsf
  · intro f f' statusCode responseBody hresp
    cases hr : f.grpcMessageReceiverOperation with
    | none =>
      unfold KuadrantFilter.onGrpcCallResponse at hresp
      rw [hr] at hresp
      simp at hresp
    | some r =>
      rw [onGrpcCallResponse_some f r statusCode responseBody hr] at hresp
      simp only [Option.some.injEq] at hresp
      subst hresp
      have hfe : ({ f with grpcMessageReceiverOperation := none } :
          KuadrantFilter).effects = f.effects := rfl
      by_cases hst : statusCode ≠ statusOk
      · rw [if_pos hst]
        obtain ⟨l, hl, hc⟩ := foldl_handleOperation_effects [r.fail]
          { f with grpcMessageReceiverOperation := none }
        rw [hfe] at hl
        rw [hl, countDispatches_append]
        have hm1 : opsSendMeasure [r.fail] = 0 := by
          simp [opsSendMeasure, fail_sendMeasure]
        rw [hm1] at hc
        omega
      · rw [if_neg hst]
        cases hbod : responseBody with
        | none =>
          obtain ⟨l, hl, hc⟩ := foldl_handleOperation_effects [r.fail]
            { f with grpcMessageReceiverOperation := none }
          rw [hfe] at hl
          show countDispatches (List.foldl
            (fun (g : KuadrantFilter) (op : Operation) => (g.handleOperation op).1)
            { f with grpcMessageReceiverOperation := none } [r.fail]).effects ≤
            countDispatches f.effects + 1
          rw [hl, countDispatches_append]
          have hm1 : opsSendMeasure [r.fail] = 0 := by
            simp [opsSendMeasure, fail_sendMeasure]
          rw [hm1] at hc
          omega
        | some body =>
          obtain ⟨l, hl, hc⟩ := foldl_handleOperation_effects
            (r.digestGrpcResponse body) { f with grpcMessageReceiverOperation := none }
          rw [hfe] at hl
          show countDispatches (List.foldl
            (fun (g : KuadrantFilter) (op : Operation) => (g.handleOperation op).1)
            { f with grpcMessageReceiverOperation := none }
            (r.digestGrpcResponse body)).effects ≤ countDispatches f.effects + 1
          rw [hl, countDispatches_append]
          have hm1 := digest_sendMeasure_le r body
          omega

def c3Filter : KuadrantFilter := KuadrantFilter.new 9 ⟨[]⟩ HeaderResolver.new quietHost

def c3Receiver : GrpcMessageReceiverOperation := ⟨denySet, 0⟩

/-- Witness for C3: entering `AwaitGrpcResponse` (the pausing transition)
stores the receiver operation. -/
theorem at_most_one_outstanding_rpc_witness :
    ((c3Filter.handleOperation
        (Operation.awaitGrpcResponse c3Receiver)).1.grpcMessageReceiverOperation).isSome =
      true :=
  at_most_one_outstanding_rpc.2.2 c3Filter (Operation.awaitGrpcResponse c3Receiver)
    (by rw [handleOperation_await])

end WasmShim
